import Mathlib

/-!
Verification of the veshell compositor core (`src/embedder/src/server.rs` and
`src/src/server_state.rs`) against its natural-language specification.

The embedding models the state that the claims are about — the three id
counters, the id→surface map, the per-surface texture-id ring, the reverse
texture index, the swap chains, and the message trace sent to the UI engine —
and the operations acting on them: `new_surface`, `commit`, `destroyed`, the
role-message constructors, and the `pointer_hover` request handler.
Machine integers (`u64` surface ids, `i64` texture ids) are modelled as
`Nat` / `Int`; within a run the counters are only ever incremented, so wraparound
is unreachable and no modular reduction is needed.
-/

namespace Veshell

/-- smithay `Size<i32, BufferCoords>`: a buffer-pixel size. -/
structure BufSize where
  w : Int
  h : Int
deriving DecidableEq, Repr

/-- smithay `Rectangle<i32, Logical>`: location and size. -/
structure Rect where
  x : Int
  y : Int
  w : Int
  h : Int
deriving DecidableEq, Repr

/-- Rust `Rectangle::default()` is the zero rectangle. -/
instance : Inhabited Rect := ⟨⟨0, 0, 0, 0⟩⟩

/-- smithay `Rectangle::merge`: bounding box of the two rectangles. -/
def Rect.merge (a b : Rect) : Rect :=
  let x := min a.x b.x
  let y := min a.y b.y
  let x2 := max (a.x + a.w) (b.x + b.w)
  let y2 := max (a.y + a.h) (b.y + b.h)
  ⟨x, y, x2 - x, y2 - y⟩

/-- smithay `RectangleKind` of an input-region rectangle. -/
inductive RectangleKind where
  | Add
  | Subtract
deriving DecidableEq, Repr

/-- smithay `BufferAssignment` as `commit` consumes it.  `NewBuffer` carries the
result of `gles_renderer.import_buffer` (`some size` when the import succeeds,
`none` when it fails); `Removed` is the client detaching its buffer. -/
inductive BufferAssignment where
  | NewBuffer (importResult : Option BufSize)
  | Removed
deriving DecidableEq, Repr

/-- The fields of smithay `SurfaceAttributes` that `commit` and
`construct_surface_message` read.  `buffer = none` is the "unchanged" case:
no buffer was committed this cycle. -/
structure SurfaceAttributes where
  buffer : Option BufferAssignment
  buffer_delta : Option (Int × Int)
  buffer_scale : Int
  input_region : Option (List (RectangleKind × Rect))
deriving DecidableEq, Repr

/-- The `SurfaceMessage` payload of a `commit_surface` platform message
(`src/embedder/src/server.rs`, `construct_surface_message`).  The role field is
modelled separately by the role-message constructors. -/
structure SurfaceMessage where
  surface_id : Nat
  texture_id : Int
  buffer_size : Option BufSize
  scale : Int
  buffer_delta : Option (Int × Int)
  input_region : Rect
deriving DecidableEq, Repr

/-- Platform messages sent from the core to the UI engine, as observed by it. -/
inductive Msg where
  | new_surface (surfaceId : Nat)
  | register_external_texture (textureId : Int)
  | mark_external_texture_frame_available (textureId : Int)
  | commit_surface (m : SurfaceMessage)
  | destroy_surface (surfaceId : Nat)
  | new_x11_surface (x11SurfaceId : Nat)
deriving DecidableEq, Repr

/-- Association-list lookup, modelling `HashMap::get`. -/
def alookup {α β : Type} [DecidableEq α] (k : α) : List (α × β) → Option β
  | [] => none
  | (k', v) :: rest => if k' = k then some v else alookup k rest

/-- Association-list insert-or-replace, modelling `HashMap::insert` and
mutation through `HashMap::entry`. -/
def aset {α β : Type} [DecidableEq α] (k : α) (v : β) : List (α × β) → List (α × β)
  | [] => [(k, v)]
  | (k', v') :: rest => if k' = k then (k, v) :: rest else (k', v') :: aset k v rest

/-- The `while len >= 2 { remove(0) }` loop of `commit`
(`src/embedder/src/server.rs:1042-1053`): keep dropping the oldest entry
(index 0) of the per-surface texture-id vector while it holds two or more
entries; with fewer than two entries the vector is left alone. -/
def ringEvict {α : Type} : List α → List α
  | [] => []
  | [a] => [a]
  | _ :: b :: rest => ringEvict (b :: rest)

/-- Modelled from the spec: the file `texture_swap_chain.rs` defining
`TextureSwapChain` is not under `src/`; §4.3 of the spec describes `commit` on a
chain as "bounded queue of length 2; if full, drop the oldest; push".  A GPU
texture is represented by its size. -/
def swapChainCommit (chain : List BufSize) (texture : BufSize) : List BufSize :=
  let chain := if 2 ≤ chain.length then chain.tail else chain
  chain ++ [texture]

/-- The portion of `ServerState` (`src/embedder/src/server.rs:86-136`) that the
claims are about, plus the trace of messages delivered to the UI engine.
`surfaces` keeps the registered surface ids (keys of the `surfaces` map);
`old_texture_size` is the per-surface `MySurfaceState::old_texture_size`
(absence of a key models `None`). -/
structure ServerState where
  next_surface_id : Nat
  next_x11_surface_id : Nat
  next_texture_id : Int
  surfaces : List Nat
  old_texture_size : List (Nat × BufSize)
  texture_ids_per_surface_id : List (Nat × List (Int × BufSize))
  surface_id_per_texture_id : List (Int × Nat)
  texture_swapchains : List (Int × List BufSize)
  messages : List Msg
deriving DecidableEq, Repr

/-- Model of `ServerState::get_new_surface_id` (`src/embedder/src/server.rs:139-143`):
return the current counter value, then increment. -/
def get_new_surface_id (s : ServerState) : Nat × ServerState :=
  (s.next_surface_id, { s with next_surface_id := s.next_surface_id + 1 })

/-- Model of `ServerState::get_new_x11_surface_id` (`src/embedder/src/server.rs:145-149`). -/
def get_new_x11_surface_id (s : ServerState) : Nat × ServerState :=
  (s.next_x11_surface_id, { s with next_x11_surface_id := s.next_x11_surface_id + 1 })

/-- Model of `ServerState::get_new_texture_id` (`src/embedder/src/server.rs:151-155`). -/
def get_new_texture_id (s : ServerState) : Int × ServerState :=
  (s.next_texture_id, { s with next_texture_id := s.next_texture_id + 1 })

/-- The `size_changed` test of `commit` (`src/embedder/src/server.rs:1019-1022`). -/
def sizeChanged (old : Option BufSize) (size : BufSize) : Bool :=
  match old with
  | some old => if old = size then false else true
  | none => true

/-- Model of `swapchain.commit(texture)` followed by
`mark_external_texture_frame_available` (`src/embedder/src/server.rs:1067-1072`).
The swap chain is fetched with `entry(texture_id).or_default()`. -/
def swapchainCommitPhase (s : ServerState) (texture_id : Int) (size : BufSize) : ServerState :=
  let chain := (alookup texture_id s.texture_swapchains).getD []
  let chains := aset texture_id (swapChainCommit chain size) s.texture_swapchains
  let s := { s with texture_swapchains := chains }
  { s with messages := s.messages ++ [Msg.mark_external_texture_frame_available texture_id] }

/-- The texture-handling body of `commit` (`src/embedder/src/server.rs:997-1077`):
resolve the pending buffer assignment, detect a size change, reuse or allocate a
texture id (evicting the oldest forward-map entries while the vector holds two
or more), update the reverse index, register the new external texture, and
commit the texture to its swap chain. -/
def commitTexturePhase (s : ServerState) (surface_id : Nat) (attrs : SurfaceAttributes) :
    ServerState :=
  let texture : Option BufSize := attrs.buffer.bind fun assignment =>
    match assignment with
    | BufferAssignment.NewBuffer importResult => importResult
    | BufferAssignment.Removed => none
  match texture with
  | none => s
  | some size =>
    let old := alookup surface_id s.old_texture_size
    let s := { s with old_texture_size := aset surface_id size s.old_texture_size }
    let reuse : Option Int :=
      if sizeChanged old size then none
      else ((alookup surface_id s.texture_ids_per_surface_id).bind List.getLast?).map Prod.fst
    match reuse with
    | some texture_id => swapchainCommitPhase s texture_id size
    | none =>
      let (texture_id, s) := get_new_texture_id s
      let vec := (alookup surface_id s.texture_ids_per_surface_id).getD []
      let fwd := aset surface_id (ringEvict vec ++ [(texture_id, size)])
        s.texture_ids_per_surface_id
      let s := { s with texture_ids_per_surface_id := fwd }
      let rev := aset texture_id surface_id s.surface_id_per_texture_id
      let s := { s with surface_id_per_texture_id := rev }
      let s := { s with messages := s.messages ++ [Msg.register_external_texture texture_id] }
      swapchainCommitPhase s texture_id size

/-- The `Add`-rectangle merge fold of `construct_surface_message`
(`src/embedder/src/server.rs:508-519`): accumulate the bounding rectangle of the
`Add` rectangles of the input region of the client, ignoring every other kind. -/
def mergeAddRects (rects : List (RectangleKind × Rect)) : Option Rect :=
  rects.foldl
    (fun acc kr =>
      match kr.1 with
      | RectangleKind.Add =>
        match acc with
        | some a => some (Rect.merge a kr.2)
        | none => some kr.2
      | _ => acc)
    none

/-- Model of `construct_surface_message` (`src/embedder/src/server.rs:488-540`): the
texture id and buffer size come from the last entry of the forward-map vector of the surface, defaulting to `(0, None)`; the input region merges the `Add` rectangles
into one bounding rectangle, defaulting to the zero rectangle, and falls back to
the buffer bounds only when the client has set no region at all. -/
def construct_surface_message (s : ServerState) (surface_id : Nat)
    (attrs : SurfaceAttributes) : SurfaceMessage :=
  let tb := (alookup surface_id s.texture_ids_per_surface_id).bind List.getLast?
  let texture_id := (tb.map Prod.fst).getD 0
  let buffer_size := tb.map Prod.snd
  let input_region :=
    match attrs.input_region with
    | some rects => (mergeAddRects rects).getD default
    | none => (buffer_size.map fun size => Rect.mk 0 0 size.w size.h).getD default
  { surface_id := surface_id
    texture_id := texture_id
    buffer_size := buffer_size
    scale := attrs.buffer_scale
    buffer_delta := attrs.buffer_delta
    input_region := input_region }

/-- The texture id that `construct_surface_message` puts into the outgoing
message: the id of the last forward-map entry of the surface, or `0` if it has none. -/
def lastTextureId (s : ServerState) (surface_id : Nat) : Int :=
  (((alookup surface_id s.texture_ids_per_surface_id).bind List.getLast?).map Prod.fst).getD 0

/-- One `commit` of a single surface (`src/embedder/src/server.rs:975-1097`,
without the recursion over subsurfaces, which is modelled separately as a
sequence of such steps): run the texture phase, then emit `commit_surface` with
the message built from the updated state. -/
def commitStep (s : ServerState) (surface_id : Nat) (attrs : SurfaceAttributes) : ServerState :=
  let s := commitTexturePhase s surface_id attrs
  let msg := construct_surface_message s surface_id attrs
  { s with messages := s.messages ++ [Msg.commit_surface msg] }

/-- The operations of a run, as the protocol machinery invokes them. A `commit`
carries the cached surface attributes, with the renderer import result folded
into the buffer assignment. -/
inductive Op where
  | newSurface
  | newX11Surface
  | commit (surface_id : Nat) (attrs : SurfaceAttributes)
  | destroy (surface_id : Nat)

/-- One step of the compositor core:
`CompositorHandler::new_surface` (`src/embedder/src/server.rs:938-958`) allocates
an id, registers the surface and emits `new_surface`; an X11-surface creation
(the callers live in the `x11` module, not under `src/`; modelled from the spec
§4.1: each allocation returns the current counter value, then increments)
allocates via `get_new_x11_surface_id`; `commit` is `commitStep`;
`CompositorHandler::destroyed` (`src/embedder/src/server.rs:1099-1118`) removes
the id from the map and emits `destroy_surface`. -/
def step (s : ServerState) : Op → ServerState
  | Op.newSurface =>
    let (surface_id, s) := get_new_surface_id s
    let s := { s with surfaces := s.surfaces ++ [surface_id] }
    { s with messages := s.messages ++ [Msg.new_surface surface_id] }
  | Op.newX11Surface =>
    let (x11_surface_id, s) := get_new_x11_surface_id s
    { s with messages := s.messages ++ [Msg.new_x11_surface x11_surface_id] }
  | Op.commit surface_id attrs => commitStep s surface_id attrs
  | Op.destroy surface_id =>
    let s := { s with surfaces := s.surfaces.filter (fun i => i ≠ surface_id) }
    { s with messages := s.messages ++ [Msg.destroy_surface surface_id] }

/-- The initial `ServerState` (`src/embedder/src/server.rs:368-414`): the three
counters start at 1 and every map is empty. -/
def initState : ServerState :=
  { next_surface_id := 1
    next_x11_surface_id := 1
    next_texture_id := 1
    surfaces := []
    old_texture_size := []
    texture_ids_per_surface_id := []
    surface_id_per_texture_id := []
    texture_swapchains := []
    messages := [] }

/-- A run: fold the steps over an operation sequence from the initial state. -/
def run (ops : List Op) : ServerState := ops.foldl step initState

/-- The surface ids the UI engine observes through `new_surface` messages, in
delivery order. -/
def surfaceIdTrace (msgs : List Msg) : List Nat :=
  msgs.filterMap fun m =>
    match m with
    | Msg.new_surface i => some i
    | _ => none

/-- The texture ids the UI engine observes through `register_external_texture`
messages, in delivery order. -/
def textureIdTrace (msgs : List Msg) : List Int :=
  msgs.filterMap fun m =>
    match m with
    | Msg.register_external_texture i => some i
    | _ => none

/-- The X11-surface ids observed by the UI engine, in delivery order. -/
def x11IdTrace (msgs : List Msg) : List Nat :=
  msgs.filterMap fun m =>
    match m with
    | Msg.new_x11_surface i => some i
    | _ => none

/-- The `(surface_id, texture_id)` pairs of the `commit_surface` messages of a
trace, in delivery order. -/
def commitTexIds (msgs : List Msg) : List (Nat × Int) :=
  msgs.filterMap fun m =>
    match m with
    | Msg.commit_surface sm => some (sm.surface_id, sm.texture_id)
    | _ => none

/-! ## XDG toplevel role machine (`construct_toplevel_role_message`) -/

/-- The pending `xdg_toplevel` state bits the role machine touches. -/
structure XdgStates where
  maximized : Bool
  activated : Bool
deriving DecidableEq, Repr

/-- The per-toplevel data read by `construct_toplevel_role_message`
(`src/embedder/src/server.rs:600-640`): the smithay `XdgToplevelSurfaceData`
fields plus the pending state set.  The parent surface is held by its id. -/
structure ToplevelData where
  initial_configure_sent : Bool
  parent : Option Nat
  app_id : Option String
  title : Option String
  pending_states : XdgStates
deriving DecidableEq, Repr

/-- The toplevel role message `{parent_surface_id, app_id, title}`. -/
structure ToplevelMessage where
  parent_surface_id : Option Nat
  app_id : Option String
  title : Option String
deriving DecidableEq, Repr

/-- Result of one role-message construction: the updated toplevel data, the
message (`none` = suppressed), and whether a configure was sent to the client. -/
structure ToplevelRoleResult where
  data : ToplevelData
  message : Option ToplevelMessage
  configure_sent : Bool
deriving DecidableEq, Repr

/-- Model of `construct_toplevel_role_message` (`src/embedder/src/server.rs:600-640`):
set pending `Maximized`; if the initial configure has not been sent, send a
configure (smithay records `initial_configure_sent` once a configure is sent)
and suppress the message; otherwise return `{parent_surface_id, app_id, title}`. -/
def construct_toplevel_role_message (d : ToplevelData) : ToplevelRoleResult :=
  let d := { d with pending_states := { d.pending_states with maximized := true } }
  if d.initial_configure_sent = false then
    { data := { d with initial_configure_sent := true }
      message := none
      configure_sent := true }
  else
    { data := d
      message := some { parent_surface_id := d.parent, app_id := d.app_id, title := d.title }
      configure_sent := false }

/-! ## Pointer routing (`pointer_hover`, `src/src/server_state.rs:198-223`) -/

/-- A pointer motion event as the smithay `PointerHandle::motion` receives it:
the focus target (surface id), the logical location, the serial and the time.
Coordinates are `f64` pass-through values, modelled as rationals. -/
structure MotionEvent where
  focus : Option Nat
  location : ℚ × ℚ
  serial : Nat
  time : Nat
deriving DecidableEq, Repr

/-- The reply sent on the platform channel: `success(null)` or
`error(code, message)`.  Only the error code is modelled; the human-readable
message text is omitted. -/
inductive Response where
  | success
  | error (code : String)
deriving DecidableEq, Repr

/-- What one `pointer_hover` request produces: the motion events delivered to
the Wayland pointer, the number of `frame` calls, and the reply. -/
structure PointerHoverResult where
  motions : List MotionEvent
  frames : Nat
  response : Response
deriving DecidableEq, Repr

/-- The `pointer_hover{view_id, x, y}` handler
(`src/src/server_state.rs:198-223`): resolve `view_id` in the `surfaces` map;
if found, deliver one motion focused on that surface at `(x, y)` with
`serial = Serial::from(0)` and the current time, then a frame, and reply
`success`; otherwise reply `error("surface_doesnt_exist")` and deliver nothing. -/
def pointer_hover (surfaces : List Nat) (view_id : Nat) (x y : ℚ) (now : Nat) :
    PointerHoverResult :=
  if view_id ∈ surfaces then
    { motions := [{ focus := some view_id, location := (x, y), serial := 0, time := now }]
      frames := 1
      response := Response.success }
  else
    { motions := []
      frames := 0
      response := Response.error "surface_doesnt_exist" }

/-! ## Subsurface commit ordering (`commit`, `src/embedder/src/server.rs:975-985`) -/

/-- A surface with its direct subsurfaces, split by z-order as
`get_direct_subsurfaces` returns them. -/
inductive SurfaceTree where
  | node (surface_id : Nat) (below : List SurfaceTree) (above : List SurfaceTree)

/-- The id at the root of a tree. -/
def SurfaceTree.rootId : SurfaceTree → Nat
  | SurfaceTree.node surface_id _ _ => surface_id

mutual

/-- The surface ids of the `commit_surface` messages emitted by one recursive
`commit` (`src/embedder/src/server.rs:975-1097`), in delivery order: the
recursion first commits each direct subsurface (`below` chained with `above`),
then emits the own `commit_surface` of the surface. -/
def commitTrace : SurfaceTree → List Nat
  | SurfaceTree.node surface_id below above =>
    commitTraceAll below ++ commitTraceAll above ++ [surface_id]

/-- Concatenation of `commitTrace` over a list of subsurfaces, in order. -/
def commitTraceAll : List SurfaceTree → List Nat
  | [] => []
  | t :: ts => commitTrace t ++ commitTraceAll ts

end

/-! ## Invariant predicates and concrete inputs -/

/-- The state produced by the texture-id allocation branch of `commit`: counter
bumped, the ring of the surface evicted down and the new pair appended, reverse index
updated, and `register_external_texture` emitted. -/
def allocState (s : ServerState) (sid : Nat) (size : BufSize) : ServerState :=
  { s with
    old_texture_size := aset sid size s.old_texture_size
    next_texture_id := s.next_texture_id + 1
    texture_ids_per_surface_id :=
      aset sid (ringEvict ((alookup sid s.texture_ids_per_surface_id).getD [])
        ++ [(s.next_texture_id, size)]) s.texture_ids_per_surface_id
    surface_id_per_texture_id := aset s.next_texture_id sid s.surface_id_per_texture_id
    messages := s.messages ++ [Msg.register_external_texture s.next_texture_id] }

/-- The invariant of claim C1: every per-surface texture-id vector holds at most two
entries. -/
def RingInv (s : ServerState) : Prop :=
  ∀ sid : Nat, ((alookup sid s.texture_ids_per_surface_id).getD []).length ≤ 2

/-- The forward-to-reverse consistency invariant, strengthened with the
freshness bound on texture ids that makes it inductive. -/
def FwdRevInv (s : ServerState) : Prop :=
  ∀ sid tid size, (tid, size) ∈ (alookup sid s.texture_ids_per_surface_id).getD [] →
    alookup tid s.surface_id_per_texture_id = some sid ∧ tid < s.next_texture_id

/-- The invariant of claim C2: each id stream delivered to the UI engine is strictly
increasing, and bounded by its counter. -/
def TraceInv (s : ServerState) : Prop :=
  ((surfaceIdTrace s.messages).Pairwise (· < ·) ∧
    ∀ i ∈ surfaceIdTrace s.messages, i < s.next_surface_id) ∧
  ((textureIdTrace s.messages).Pairwise (· < ·) ∧
    ∀ i ∈ textureIdTrace s.messages, i < s.next_texture_id) ∧
  ((x11IdTrace s.messages).Pairwise (· < ·) ∧
    ∀ i ∈ x11IdTrace s.messages, i < s.next_x11_surface_id)

/-- Commit attributes carrying a newly imported buffer of the given size. -/
def newBufferAttrs (w h : Int) : SurfaceAttributes :=
  { buffer := some (BufferAssignment.NewBuffer (some ⟨w, h⟩))
    buffer_delta := none
    buffer_scale := 1
    input_region := none }

/-- Commit attributes with the client buffer detached (`Removed`). -/
def removedAttrs : SurfaceAttributes :=
  { buffer := some BufferAssignment.Removed
    buffer_delta := none
    buffer_scale := 1
    input_region := none }

/-- Commit attributes with no buffer committed this cycle (unchanged). -/
def unchangedAttrs : SurfaceAttributes :=
  { buffer := none
    buffer_delta := none
    buffer_scale := 1
    input_region := none }

/-- Commit attributes whose client-set input region holds only a `Subtract`
rectangle. -/
def subtractOnlyAttrs : SurfaceAttributes :=
  { buffer := none
    buffer_delta := none
    buffer_scale := 1
    input_region := some [(RectangleKind.Subtract, ⟨5, 5, 10, 10⟩)] }

/-- A run allocating three texture ids for one surface through two size
changes, so that the first id is evicted from the ring. -/
def c6Ops : List Op :=
  [Op.newSurface, Op.commit 1 (newBufferAttrs 200 100), Op.commit 1 (newBufferAttrs 300 100),
    Op.commit 1 (newBufferAttrs 400 100)]

/-- A run with one surface and one imported texture. -/
def c6WitnessOps : List Op := [Op.newSurface, Op.commit 1 (newBufferAttrs 200 100)]

/-- A run with one surface and two textures of different sizes in its ring. -/
def c1WitnessOps : List Op :=
  [Op.newSurface, Op.commit 1 (newBufferAttrs 200 100), Op.commit 1 (newBufferAttrs 300 100)]

/-- A run whose second commit detaches the buffer of a fresh surface. -/
def c5Ops : List Op := [Op.newSurface, Op.commit 1 removedAttrs]

/-- A run importing a texture for a surface and then destroying the surface. -/
def c9Ops : List Op :=
  [Op.newSurface, Op.commit 1 (newBufferAttrs 200 100), Op.destroy 1]

/-- A run with one surface and one imported texture, for the input-region
check. -/
def c10WitnessOps : List Op := [Op.newSurface, Op.commit 1 (newBufferAttrs 200 100)]

/-! ## Association-list and ring lemmas -/

theorem alookup_aset_self {α β : Type} [DecidableEq α] (k : α) (v : β) (l : List (α × β)) :
    alookup k (aset k v l) = some v := by
  induction l with
  | nil => simp [alookup, aset]
  | cons p rest ih =>
    obtain ⟨a, b⟩ := p
    by_cases h : a = k <;> simp [alookup, aset, h, ih]

theorem alookup_aset_ne {α β : Type} [DecidableEq α] {k k' : α} (hne : k' ≠ k) (v : β)
    (l : List (α × β)) : alookup k' (aset k v l) = alookup k' l := by
  induction l with
  | nil => simp [alookup, aset, hne, Ne.symm hne]
  | cons p rest ih =>
    obtain ⟨a, b⟩ := p
    by_cases h : a = k
    · subst h
      simp [alookup, aset, Ne.symm hne]
    · simp [alookup, aset, h, ih]

theorem ringEvict_length {α : Type} (l : List α) : (ringEvict l).length = min l.length 1 := by
  induction l with
  | nil => simp [ringEvict]
  | cons a rest ih =>
    cases rest with
    | nil => simp [ringEvict]
    | cons b rest' =>
      simp only [ringEvict]
      rw [ih]
      simp only [List.length_cons]
      omega

theorem ringEvict_suffix {α : Type} (l : List α) : (ringEvict l).IsSuffix l := by
  induction l with
  | nil => exact List.suffix_rfl
  | cons a rest ih =>
    cases rest with
    | nil => exact List.suffix_rfl
    | cons b rest' =>
      simp only [ringEvict]
      exact ih.trans (List.suffix_cons a (b :: rest'))

theorem ringEvict_eq_of_lt {α : Type} {l : List α} (h : l.length < 2) : ringEvict l = l := by
  match l with
  | [] => rfl
  | [a] => rfl
  | a :: b :: rest => simp only [List.length_cons] at h; omega

/-! ## Message-trace lemmas -/

theorem surfaceIdTrace_append (a b : List Msg) :
    surfaceIdTrace (a ++ b) = surfaceIdTrace a ++ surfaceIdTrace b :=
  List.filterMap_append a b _

theorem textureIdTrace_append (a b : List Msg) :
    textureIdTrace (a ++ b) = textureIdTrace a ++ textureIdTrace b :=
  List.filterMap_append a b _

theorem x11IdTrace_append (a b : List Msg) :
    x11IdTrace (a ++ b) = x11IdTrace a ++ x11IdTrace b :=
  List.filterMap_append a b _

theorem commitTexIds_append (a b : List Msg) :
    commitTexIds (a ++ b) = commitTexIds a ++ commitTexIds b :=
  List.filterMap_append a b _

/-- Appending a strictly larger element keeps a list strictly increasing. -/
theorem pairwise_append_singleton {α : Type} {R : α → α → Prop} {l : List α} {n : α}
    (hp : l.Pairwise R) (hb : ∀ i ∈ l, R i n) : (l ++ [n]).Pairwise R := by
  rw [List.pairwise_append]
  refine ⟨hp, List.pairwise_singleton R n, ?_⟩
  intro a ha b hb'
  rw [List.mem_singleton] at hb'
  subst hb'
  exact hb a ha

/-! ## Effect lemmas for the commit pipeline -/

theorem swapchainCommitPhase_fwd (s : ServerState) (tid : Int) (size : BufSize) :
    (swapchainCommitPhase s tid size).texture_ids_per_surface_id =
      s.texture_ids_per_surface_id := rfl

theorem swapchainCommitPhase_rev (s : ServerState) (tid : Int) (size : BufSize) :
    (swapchainCommitPhase s tid size).surface_id_per_texture_id =
      s.surface_id_per_texture_id := rfl

theorem swapchainCommitPhase_next_texture_id (s : ServerState) (tid : Int) (size : BufSize) :
    (swapchainCommitPhase s tid size).next_texture_id = s.next_texture_id := rfl

theorem swapchainCommitPhase_next_surface_id (s : ServerState) (tid : Int) (size : BufSize) :
    (swapchainCommitPhase s tid size).next_surface_id = s.next_surface_id := rfl

theorem swapchainCommitPhase_next_x11_surface_id (s : ServerState) (tid : Int) (size : BufSize) :
    (swapchainCommitPhase s tid size).next_x11_surface_id = s.next_x11_surface_id := rfl

theorem swapchainCommitPhase_surfaces (s : ServerState) (tid : Int) (size : BufSize) :
    (swapchainCommitPhase s tid size).surfaces = s.surfaces := rfl

theorem swapchainCommitPhase_messages (s : ServerState) (tid : Int) (size : BufSize) :
    (swapchainCommitPhase s tid size).messages =
      s.messages ++ [Msg.mark_external_texture_frame_available tid] := rfl

/-- Every execution of the texture phase takes one of three shapes: no texture
(state untouched), reuse of an existing texture id, or allocation of a fresh
texture id through `allocState`. -/
theorem commitTexturePhase_shape (s : ServerState) (sid : Nat) (attrs : SurfaceAttributes) :
    commitTexturePhase s sid attrs = s ∨
    (∃ tid size, commitTexturePhase s sid attrs =
      swapchainCommitPhase { s with old_texture_size := aset sid size s.old_texture_size }
        tid size) ∨
    (∃ size, commitTexturePhase s sid attrs =
      swapchainCommitPhase (allocState s sid size) s.next_texture_id size) := by
  simp only [commitTexturePhase, get_new_texture_id, allocState]
  split
  · left; rfl
  · rename_i size _
    split
    · rename_i tid _
      right; left
      exact ⟨tid, size, rfl⟩
    · right; right
      exact ⟨size, rfl⟩

/-! ## Run invariants -/

/-- An invariant holding initially and preserved by every step holds after any
run. -/
theorem inv_run {P : ServerState → Prop} (hinit : P initState)
    (hstep : ∀ s op, P s → P (step s op)) (ops : List Op) : P (run ops) := by
  suffices h : ∀ (l : List Op) (s : ServerState), P s → P (l.foldl step s) from
    h ops initState hinit
  intro l
  induction l with
  | nil => intro s hs; exact hs
  | cons op rest ih => intro s hs; exact ih _ (hstep s op hs)

theorem ringInv_phase (s : ServerState) (sid : Nat) (attrs : SurfaceAttributes)
    (h : RingInv s) : RingInv (commitTexturePhase s sid attrs) := by
  rcases commitTexturePhase_shape s sid attrs with heq | ⟨tid, size, heq⟩ | ⟨size, heq⟩ <;>
    rw [heq]
  · exact h
  · intro sid'
    rw [swapchainCommitPhase_fwd]
    exact h sid'
  · intro sid'
    rw [swapchainCommitPhase_fwd]
    show ((alookup sid' (allocState s sid size).texture_ids_per_surface_id).getD []).length ≤ 2
    by_cases hs : sid' = sid
    · subst hs
      have : alookup sid' (allocState s sid' size).texture_ids_per_surface_id =
          some (ringEvict ((alookup sid' s.texture_ids_per_surface_id).getD [])
            ++ [(s.next_texture_id, size)]) := alookup_aset_self _ _ _
      rw [this]
      simp only [Option.getD_some, List.length_append, List.length_singleton]
      have := ringEvict_length ((alookup sid' s.texture_ids_per_surface_id).getD [])
      omega
    · have : alookup sid' (allocState s sid size).texture_ids_per_surface_id =
          alookup sid' s.texture_ids_per_surface_id := alookup_aset_ne hs _ _
      rw [this]
      exact h sid'

theorem ringInv_step (s : ServerState) (op : Op) (h : RingInv s) : RingInv (step s op) := by
  cases op with
  | newSurface => exact h
  | newX11Surface => exact h
  | commit sid attrs => exact ringInv_phase s sid attrs h
  | destroy sid => exact h

theorem fwdRevInv_phase (s : ServerState) (sid : Nat) (attrs : SurfaceAttributes)
    (h : FwdRevInv s) : FwdRevInv (commitTexturePhase s sid attrs) := by
  rcases commitTexturePhase_shape s sid attrs with heq | ⟨tid, size, heq⟩ | ⟨size, heq⟩ <;>
    rw [heq]
  · exact h
  · intro sid' tid' size' hmem
    rw [swapchainCommitPhase_fwd] at hmem
    rw [swapchainCommitPhase_rev, swapchainCommitPhase_next_texture_id]
    exact h sid' tid' size' hmem
  · intro sid' tid' size' hmem
    rw [swapchainCommitPhase_fwd] at hmem
    rw [swapchainCommitPhase_rev, swapchainCommitPhase_next_texture_id]
    show alookup tid' (allocState s sid size).surface_id_per_texture_id = some sid' ∧
      tid' < (allocState s sid size).next_texture_id
    have hrev : (allocState s sid size).surface_id_per_texture_id =
      aset s.next_texture_id sid s.surface_id_per_texture_id := rfl
    have hnext : (allocState s sid size).next_texture_id = s.next_texture_id + 1 := rfl
    rw [hrev, hnext]
    by_cases hs : sid' = sid
    · subst hs
      have hself : alookup sid' (allocState s sid' size).texture_ids_per_surface_id =
          some (ringEvict ((alookup sid' s.texture_ids_per_surface_id).getD [])
            ++ [(s.next_texture_id, size)]) := alookup_aset_self _ _ _
      rw [show (allocState s sid' size).texture_ids_per_surface_id =
        aset sid' (ringEvict ((alookup sid' s.texture_ids_per_surface_id).getD [])
          ++ [(s.next_texture_id, size)]) s.texture_ids_per_surface_id from rfl] at hmem
      rw [alookup_aset_self] at hmem
      simp only [Option.getD_some] at hmem
      rcases List.mem_append.mp hmem with hold | hnew
      · have hold' := (ringEvict_suffix _).subset hold
        obtain ⟨h1, h2⟩ := h sid' tid' size' hold'
        refine ⟨?_, by omega⟩
        rw [alookup_aset_ne (by omega : tid' ≠ s.next_texture_id)]
        exact h1
      · rw [List.mem_singleton, Prod.mk.injEq] at hnew
        obtain ⟨h1, h2⟩ := hnew
        subst h1
        exact ⟨alookup_aset_self _ _ _, by omega⟩
    · rw [show (allocState s sid size).texture_ids_per_surface_id =
        aset sid (ringEvict ((alookup sid s.texture_ids_per_surface_id).getD [])
          ++ [(s.next_texture_id, size)]) s.texture_ids_per_surface_id from rfl,
        alookup_aset_ne hs] at hmem
      obtain ⟨h1, h2⟩ := h sid' tid' size' hmem
      refine ⟨?_, by omega⟩
      rw [alookup_aset_ne (by omega : tid' ≠ s.next_texture_id)]
      exact h1

theorem fwdRevInv_step (s : ServerState) (op : Op) (h : FwdRevInv s) :
    FwdRevInv (step s op) := by
  cases op with
  | newSurface => exact h
  | newX11Surface => exact h
  | commit sid attrs => exact fwdRevInv_phase s sid attrs h
  | destroy sid => exact h

theorem surfaceIdTrace_new (i : Nat) : surfaceIdTrace [Msg.new_surface i] = [i] := rfl

theorem surfaceIdTrace_register (t : Int) :
    surfaceIdTrace [Msg.register_external_texture t] = [] := rfl

theorem surfaceIdTrace_mark (t : Int) :
    surfaceIdTrace [Msg.mark_external_texture_frame_available t] = [] := rfl

theorem surfaceIdTrace_commit (m : SurfaceMessage) :
    surfaceIdTrace [Msg.commit_surface m] = [] := rfl

theorem surfaceIdTrace_destroy (i : Nat) : surfaceIdTrace [Msg.destroy_surface i] = [] := rfl

theorem surfaceIdTrace_newx11 (i : Nat) : surfaceIdTrace [Msg.new_x11_surface i] = [] := rfl

theorem textureIdTrace_new (i : Nat) : textureIdTrace [Msg.new_surface i] = [] := rfl

theorem textureIdTrace_register (t : Int) :
    textureIdTrace [Msg.register_external_texture t] = [t] := rfl

theorem textureIdTrace_mark (t : Int) :
    textureIdTrace [Msg.mark_external_texture_frame_available t] = [] := rfl

theorem textureIdTrace_commit (m : SurfaceMessage) :
    textureIdTrace [Msg.commit_surface m] = [] := rfl

theorem textureIdTrace_destroy (i : Nat) : textureIdTrace [Msg.destroy_surface i] = [] := rfl

theorem textureIdTrace_newx11 (i : Nat) : textureIdTrace [Msg.new_x11_surface i] = [] := rfl

theorem x11IdTrace_new (i : Nat) : x11IdTrace [Msg.new_surface i] = [] := rfl

theorem x11IdTrace_register (t : Int) : x11IdTrace [Msg.register_external_texture t] = [] := rfl

theorem x11IdTrace_mark (t : Int) :
    x11IdTrace [Msg.mark_external_texture_frame_available t] = [] := rfl

theorem x11IdTrace_commit (m : SurfaceMessage) : x11IdTrace [Msg.commit_surface m] = [] := rfl

theorem x11IdTrace_destroy (i : Nat) : x11IdTrace [Msg.destroy_surface i] = [] := rfl

theorem x11IdTrace_newx11 (i : Nat) : x11IdTrace [Msg.new_x11_surface i] = [i] := rfl

theorem commitTexIds_register (t : Int) : commitTexIds [Msg.register_external_texture t] = [] :=
  rfl

theorem commitTexIds_mark (t : Int) :
    commitTexIds [Msg.mark_external_texture_frame_available t] = [] := rfl

theorem commitTexIds_commit (m : SurfaceMessage) :
    commitTexIds [Msg.commit_surface m] = [(m.surface_id, m.texture_id)] := rfl

/-- The invariant `TraceInv` transfers to a state that only appended trace-silent messages and
kept the three counters. -/
theorem traceInv_of_appends (s s' : ServerState)
    (hmsg : ∃ ms, s'.messages = s.messages ++ ms ∧ surfaceIdTrace ms = [] ∧
      textureIdTrace ms = [] ∧ x11IdTrace ms = [])
    (h1 : s'.next_surface_id = s.next_surface_id)
    (h2 : s'.next_texture_id = s.next_texture_id)
    (h3 : s'.next_x11_surface_id = s.next_x11_surface_id)
    (h : TraceInv s) : TraceInv s' := by
  obtain ⟨ms, hm, e1, e2, e3⟩ := hmsg
  obtain ⟨⟨hsp, hsb⟩, ⟨htp, htb⟩, ⟨hxp, hxb⟩⟩ := h
  rw [TraceInv, hm, h1, h2, h3, surfaceIdTrace_append, textureIdTrace_append,
    x11IdTrace_append, e1, e2, e3]
  simp only [List.append_nil]
  exact ⟨⟨hsp, hsb⟩, ⟨htp, htb⟩, ⟨hxp, hxb⟩⟩

theorem traceInv_alloc (s : ServerState) (sid : Nat) (size : BufSize) (h : TraceInv s) :
    TraceInv (swapchainCommitPhase (allocState s sid size) s.next_texture_id size) := by
  obtain ⟨⟨hsp, hsb⟩, ⟨htp, htb⟩, ⟨hxp, hxb⟩⟩ := h
  have hm : (swapchainCommitPhase (allocState s sid size) s.next_texture_id size).messages =
      s.messages ++ [Msg.register_external_texture s.next_texture_id] ++
        [Msg.mark_external_texture_frame_available s.next_texture_id] := rfl
  have h1 : (swapchainCommitPhase (allocState s sid size) s.next_texture_id size).next_surface_id
      = s.next_surface_id := rfl
  have h2 : (swapchainCommitPhase (allocState s sid size) s.next_texture_id size).next_texture_id
      = s.next_texture_id + 1 := rfl
  have h3 : (swapchainCommitPhase (allocState s sid size)
      s.next_texture_id size).next_x11_surface_id = s.next_x11_surface_id := rfl
  rw [TraceInv, hm, h1, h2, h3, surfaceIdTrace_append, surfaceIdTrace_append,
    textureIdTrace_append, textureIdTrace_append, x11IdTrace_append, x11IdTrace_append,
    surfaceIdTrace_register, surfaceIdTrace_mark, textureIdTrace_register, textureIdTrace_mark,
    x11IdTrace_register, x11IdTrace_mark]
  simp only [List.append_nil]
  refine ⟨⟨hsp, hsb⟩, ⟨?_, ?_⟩, ⟨hxp, hxb⟩⟩
  · exact pairwise_append_singleton htp htb
  · intro i hi
    rcases List.mem_append.mp hi with hi | hi
    · have := htb i hi
      omega
    · rw [List.mem_singleton] at hi
      subst hi
      omega

theorem traceInv_phase (s : ServerState) (sid : Nat) (attrs : SurfaceAttributes)
    (h : TraceInv s) : TraceInv (commitTexturePhase s sid attrs) := by
  rcases commitTexturePhase_shape s sid attrs with heq | ⟨tid, size, heq⟩ | ⟨size, heq⟩ <;>
    rw [heq]
  · exact h
  · exact traceInv_of_appends s _
      ⟨[Msg.mark_external_texture_frame_available tid], rfl, rfl, rfl, rfl⟩ rfl rfl rfl h
  · exact traceInv_alloc s sid size h

theorem traceInv_step (s : ServerState) (op : Op) (h : TraceInv s) : TraceInv (step s op) := by
  cases op with
  | newSurface =>
    obtain ⟨⟨hsp, hsb⟩, ⟨htp, htb⟩, ⟨hxp, hxb⟩⟩ := h
    have hm : (step s Op.newSurface).messages =
        s.messages ++ [Msg.new_surface s.next_surface_id] := rfl
    have h1 : (step s Op.newSurface).next_surface_id = s.next_surface_id + 1 := rfl
    have h2 : (step s Op.newSurface).next_texture_id = s.next_texture_id := rfl
    have h3 : (step s Op.newSurface).next_x11_surface_id = s.next_x11_surface_id := rfl
    rw [TraceInv, hm, h1, h2, h3, surfaceIdTrace_append, textureIdTrace_append,
      x11IdTrace_append, surfaceIdTrace_new, textureIdTrace_new, x11IdTrace_new]
    simp only [List.append_nil]
    refine ⟨⟨?_, ?_⟩, ⟨htp, htb⟩, ⟨hxp, hxb⟩⟩
    · exact pairwise_append_singleton hsp hsb
    · intro i hi
      rcases List.mem_append.mp hi with hi | hi
      · have := hsb i hi
        omega
      · rw [List.mem_singleton] at hi
        subst hi
        omega
  | newX11Surface =>
    obtain ⟨⟨hsp, hsb⟩, ⟨htp, htb⟩, ⟨hxp, hxb⟩⟩ := h
    have hm : (step s Op.newX11Surface).messages =
        s.messages ++ [Msg.new_x11_surface s.next_x11_surface_id] := rfl
    have h1 : (step s Op.newX11Surface).next_surface_id = s.next_surface_id := rfl
    have h2 : (step s Op.newX11Surface).next_texture_id = s.next_texture_id := rfl
    have h3 : (step s Op.newX11Surface).next_x11_surface_id = s.next_x11_surface_id + 1 := rfl
    rw [TraceInv, hm, h1, h2, h3, surfaceIdTrace_append, textureIdTrace_append,
      x11IdTrace_append, surfaceIdTrace_newx11, textureIdTrace_newx11, x11IdTrace_newx11]
    simp only [List.append_nil]
    refine ⟨⟨hsp, hsb⟩, ⟨htp, htb⟩, ⟨?_, ?_⟩⟩
    · exact pairwise_append_singleton hxp hxb
    · intro i hi
      rcases List.mem_append.mp hi with hi | hi
      · have := hxb i hi
        omega
      · rw [List.mem_singleton] at hi
        subst hi
        omega
  | commit sid attrs =>
    have hphase := traceInv_phase s sid attrs h
    exact traceInv_of_appends (commitTexturePhase s sid attrs) _
      ⟨[Msg.commit_surface
          (construct_surface_message (commitTexturePhase s sid attrs) sid attrs)],
        rfl, rfl, rfl, rfl⟩ rfl rfl rfl hphase
  | destroy sid =>
    exact traceInv_of_appends s _ ⟨[Msg.destroy_surface sid], rfl, rfl, rfl, rfl⟩ rfl rfl rfl h

/-! ## Commit-step equations -/

theorem commitStep_eq (s : ServerState) (sid : Nat) (attrs : SurfaceAttributes) :
    commitStep s sid attrs =
      { commitTexturePhase s sid attrs with
        messages := (commitTexturePhase s sid attrs).messages ++
          [Msg.commit_surface
            (construct_surface_message (commitTexturePhase s sid attrs) sid attrs)] } := rfl

theorem commitStep_fwd (s : ServerState) (sid : Nat) (attrs : SurfaceAttributes) :
    (commitStep s sid attrs).texture_ids_per_surface_id =
      (commitTexturePhase s sid attrs).texture_ids_per_surface_id := rfl

theorem commitStep_next_texture_id (s : ServerState) (sid : Nat) (attrs : SurfaceAttributes) :
    (commitStep s sid attrs).next_texture_id =
      (commitTexturePhase s sid attrs).next_texture_id := rfl

theorem commitStep_swapchains (s : ServerState) (sid : Nat) (attrs : SurfaceAttributes) :
    (commitStep s sid attrs).texture_swapchains =
      (commitTexturePhase s sid attrs).texture_swapchains := rfl

theorem commitStep_messages (s : ServerState) (sid : Nat) (attrs : SurfaceAttributes) :
    (commitStep s sid attrs).messages =
      (commitTexturePhase s sid attrs).messages ++
        [Msg.commit_surface
          (construct_surface_message (commitTexturePhase s sid attrs) sid attrs)] := rfl

theorem construct_surface_message_surface_id (s : ServerState) (sid : Nat)
    (attrs : SurfaceAttributes) : (construct_surface_message s sid attrs).surface_id = sid := rfl

theorem construct_surface_message_texture_id (s : ServerState) (sid : Nat)
    (attrs : SurfaceAttributes) :
    (construct_surface_message s sid attrs).texture_id = lastTextureId s sid := rfl

/-- A pending buffer that resolves to no texture (`Removed`, an unchanged
buffer, or a failed import) leaves the state untouched by the texture phase. -/
theorem commitTexturePhase_no_texture (s : ServerState) (sid : Nat)
    (attrs : SurfaceAttributes)
    (h : (attrs.buffer.bind fun assignment =>
      match assignment with
      | BufferAssignment.NewBuffer importResult => importResult
      | BufferAssignment.Removed => none) = (none : Option BufSize)) :
    commitTexturePhase s sid attrs = s := by
  simp only [commitTexturePhase, h]

theorem commitTexturePhase_removed (s : ServerState) (sid : Nat) (attrs : SurfaceAttributes)
    (h : attrs.buffer = some BufferAssignment.Removed) :
    commitTexturePhase s sid attrs = s :=
  commitTexturePhase_no_texture s sid attrs (by rw [h]; rfl)

theorem commitTexturePhase_unchanged (s : ServerState) (sid : Nat) (attrs : SurfaceAttributes)
    (h : attrs.buffer = none) : commitTexturePhase s sid attrs = s :=
  commitTexturePhase_no_texture s sid attrs (by rw [h]; rfl)

/-- The texture phase emits no `commit_surface` message. -/
theorem commitTexIds_phase (s : ServerState) (sid : Nat) (attrs : SurfaceAttributes) :
    commitTexIds (commitTexturePhase s sid attrs).messages = commitTexIds s.messages := by
  rcases commitTexturePhase_shape s sid attrs with heq | ⟨tid, size, heq⟩ | ⟨size, heq⟩ <;>
    rw [heq]
  · have hm : (swapchainCommitPhase
        { s with old_texture_size := aset sid size s.old_texture_size } tid size).messages =
      s.messages ++ [Msg.mark_external_texture_frame_available tid] := rfl
    rw [hm, commitTexIds_append, commitTexIds_mark, List.append_nil]
  · have hm : (swapchainCommitPhase (allocState s sid size) s.next_texture_id size).messages =
      s.messages ++ [Msg.register_external_texture s.next_texture_id] ++
        [Msg.mark_external_texture_frame_available s.next_texture_id] := rfl
    rw [hm, commitTexIds_append, commitTexIds_append, commitTexIds_register, commitTexIds_mark,
      List.append_nil, List.append_nil]

/-- Every `commit` step appends exactly one `commit_surface` pair to the
commit trace: the id of the surface paired with its current last texture id. -/
theorem commitTexIds_commitStep (s : ServerState) (sid : Nat) (attrs : SurfaceAttributes) :
    commitTexIds (commitStep s sid attrs).messages =
      commitTexIds s.messages ++
        [(sid, lastTextureId (commitTexturePhase s sid attrs) sid)] := by
  rw [commitStep_messages, commitTexIds_append, commitTexIds_commit,
    construct_surface_message_surface_id, construct_surface_message_texture_id,
    commitTexIds_phase]

/-! ## Subsurface-tree lemmas -/

theorem rootId_mem_commitTrace (t : SurfaceTree) : t.rootId ∈ commitTrace t := by
  cases t with
  | node sid below above => simp [commitTrace, SurfaceTree.rootId]

theorem commitTrace_subset_commitTraceAll {t : SurfaceTree} {ts : List SurfaceTree}
    (h : t ∈ ts) : ∀ x ∈ commitTrace t, x ∈ commitTraceAll ts := by
  induction ts with
  | nil => cases h
  | cons t' rest ih =>
    intro x hx
    rw [commitTraceAll]
    rcases List.mem_cons.mp h with h1 | h2
    · subst h1
      exact List.mem_append_left _ hx
    · exact List.mem_append_right _ (ih h2 x hx)

/-! ## Input-region merge lemma -/

/-- With no `Add` rectangle in the list, the merge fold accumulates nothing. -/
theorem mergeAddRects_no_add (rects : List (RectangleKind × Rect))
    (h : ∀ kr ∈ rects, kr.1 ≠ RectangleKind.Add) : mergeAddRects rects = none := by
  induction rects with
  | nil => rfl
  | cons kr rest ih =>
    obtain ⟨k, r⟩ := kr
    cases k with
    | Add => exact absurd rfl (h (RectangleKind.Add, r) (List.mem_cons_self _ _))
    | Subtract =>
      exact ih fun kr hkr => h kr (List.mem_cons.mpr (Or.inr hkr))

/-! ## Initial-state invariants -/

theorem ringInv_init : RingInv initState := by
  intro sid
  simp [initState, alookup]

theorem fwdRevInv_init : FwdRevInv initState := by
  intro sid tid size h
  simp [initState, alookup] at h

theorem traceInv_init : TraceInv initState := by
  refine ⟨⟨?_, ?_⟩, ⟨?_, ?_⟩, ⟨?_, ?_⟩⟩ <;>
    simp [initState, surfaceIdTrace, textureIdTrace, x11IdTrace]

/-! ## Claims -/

/-- Claim C1: at every point during a run, `texture_ids_per_surface_id[id]`
holds at most 2 entries for every surface id; and when a commit allocates a new
texture id (a texture resolved and its size changed or no previous size exists),
the oldest entries are removed from the front (the evicted vector is a suffix
of the old one, of length `min len 1`, so the removal happens exactly while two
or more entries remain) and only then is the new `(id, size)` pair appended. -/
theorem c1_texture_ring_bound :
    (∀ (ops : List Op) (sid : Nat),
      ((alookup sid (run ops).texture_ids_per_surface_id).getD []).length ≤ 2) ∧
    (∀ (l : List (Int × BufSize)), (ringEvict l).IsSuffix l ∧
      (ringEvict l).length = min l.length 1) ∧
    (∀ (s : ServerState) (sid : Nat) (size : BufSize) (attrs : SurfaceAttributes),
      attrs.buffer = some (BufferAssignment.NewBuffer (some size)) →
      sizeChanged (alookup sid s.old_texture_size) size = true →
      alookup sid (commitTexturePhase s sid attrs).texture_ids_per_surface_id =
        some (ringEvict ((alookup sid s.texture_ids_per_surface_id).getD []) ++
          [(s.next_texture_id, size)])) := by
  refine ⟨?_, ?_, ?_⟩
  · intro ops sid
    exact inv_run ringInv_init ringInv_step ops sid
  · intro l
    exact ⟨ringEvict_suffix l, ringEvict_length l⟩
  · intro s sid size attrs hbuf hsz
    simp only [commitTexturePhase, hbuf, Option.some_bind, hsz, if_true, get_new_texture_id]
    rw [swapchainCommitPhase_fwd]
    exact alookup_aset_self _ _ _

/-- Witness for C1 at a concrete run and a concrete texture-allocating commit. -/
theorem c1_texture_ring_bound_witness :
    ((alookup 1 (run c1WitnessOps).texture_ids_per_surface_id).getD []).length ≤ 2 ∧
    alookup 1
        (commitTexturePhase (run c1WitnessOps) 1 (newBufferAttrs 400 100)).texture_ids_per_surface_id =
      some (ringEvict ((alookup 1 (run c1WitnessOps).texture_ids_per_surface_id).getD []) ++
        [((run c1WitnessOps).next_texture_id, ⟨400, 100⟩)]) :=
  ⟨c1_texture_ring_bound.1 c1WitnessOps 1,
    c1_texture_ring_bound.2.2 (run c1WitnessOps) 1 ⟨400, 100⟩ (newBufferAttrs 400 100) rfl
      (by decide)⟩

/-- Claim C2: the three id counters start at 1; each allocator returns the
current counter value and then increments it; and over every interleaving of
operations, each id stream delivered to the UI engine is strictly increasing
(hence pairwise unique, and no id is ever reused). -/
theorem c2_monotonic_ids :
    initState.next_surface_id = 1 ∧ initState.next_x11_surface_id = 1 ∧
    initState.next_texture_id = 1 ∧
    (∀ s : ServerState, (get_new_surface_id s).1 = s.next_surface_id ∧
      (get_new_surface_id s).2.next_surface_id = s.next_surface_id + 1) ∧
    (∀ s : ServerState, (get_new_x11_surface_id s).1 = s.next_x11_surface_id ∧
      (get_new_x11_surface_id s).2.next_x11_surface_id = s.next_x11_surface_id + 1) ∧
    (∀ s : ServerState, (get_new_texture_id s).1 = s.next_texture_id ∧
      (get_new_texture_id s).2.next_texture_id = s.next_texture_id + 1) ∧
    (∀ ops : List Op,
      (surfaceIdTrace (run ops).messages).Pairwise (· < ·) ∧
      (textureIdTrace (run ops).messages).Pairwise (· < ·) ∧
      (x11IdTrace (run ops).messages).Pairwise (· < ·)) := by
  refine ⟨rfl, rfl, rfl, fun s => ⟨rfl, rfl⟩, fun s => ⟨rfl, rfl⟩, fun s => ⟨rfl, rfl⟩, ?_⟩
  intro ops
  obtain ⟨⟨hsp, _⟩, ⟨htp, _⟩, ⟨hxp, _⟩⟩ := inv_run traceInv_init traceInv_step ops
  exact ⟨hsp, htp, hxp⟩

/-- Claim C3: a commit of a surface with direct subsurfaces recursively
processes the subsurfaces first, so the parent `commit_surface` is the final
message of its trace, and the `commit_surface` of every direct subsurface lies
in the strict prefix before it. -/
theorem c3_subsurfaces_commit_first :
    ∀ (sid : Nat) (below above : List SurfaceTree),
      commitTrace (SurfaceTree.node sid below above) =
        (commitTraceAll below ++ commitTraceAll above) ++ [sid] ∧
      ∀ c ∈ below ++ above, c.rootId ∈ commitTraceAll below ++ commitTraceAll above := by
  intro sid below above
  constructor
  · simp [commitTrace]
  · intro c hc
    rcases List.mem_append.mp hc with h | h
    · exact List.mem_append_left _
        (commitTrace_subset_commitTraceAll h _ (rootId_mem_commitTrace c))
    · exact List.mem_append_right _
        (commitTrace_subset_commitTraceAll h _ (rootId_mem_commitTrace c))

/-- Witness for C3 at a surface with one subsurface below and one above. -/
theorem c3_subsurfaces_commit_first_witness :
    commitTrace (SurfaceTree.node 1 [SurfaceTree.node 2 [] []] [SurfaceTree.node 3 [] []]) =
      (commitTraceAll [SurfaceTree.node 2 [] []] ++
        commitTraceAll [SurfaceTree.node 3 [] []]) ++ [1] ∧
    (SurfaceTree.node 2 [] []).rootId ∈
      commitTraceAll [SurfaceTree.node 2 [] []] ++ commitTraceAll [SurfaceTree.node 3 [] []] :=
  ⟨(c3_subsurfaces_commit_first 1 _ _).1,
    (c3_subsurfaces_commit_first 1 _ _).2 _ (List.mem_cons_self _ _)⟩

/-- Claim C4: toplevel role-message construction always sets the pending
`Maximized` state (in particular on the first construction); while
`initial_configure_sent` is false it sends a configure and suppresses the
message; once true it returns `{parent_surface_id, app_id, title}`. -/
theorem c4_toplevel_role_message (d : ToplevelData) :
    (construct_toplevel_role_message d).data.pending_states.maximized = true ∧
    (d.initial_configure_sent = false →
      (construct_toplevel_role_message d).configure_sent = true ∧
      (construct_toplevel_role_message d).message = none) ∧
    (d.initial_configure_sent = true →
      (construct_toplevel_role_message d).message =
        some { parent_surface_id := d.parent, app_id := d.app_id, title := d.title } ∧
      (construct_toplevel_role_message d).configure_sent = false) := by
  cases hics : d.initial_configure_sent <;>
    simp [construct_toplevel_role_message, hics]

/-- Witness for C4: a first construction suppresses the message and sends a
configure; a construction after the initial configure returns the role data. -/
theorem c4_toplevel_role_message_witness :
    ((construct_toplevel_role_message ⟨false, none, some "foo", none, ⟨false, true⟩⟩).message =
        none ∧
      (construct_toplevel_role_message ⟨false, none, some "foo", none,
        ⟨false, true⟩⟩).configure_sent = true) ∧
    (construct_toplevel_role_message ⟨true, some 3, some "foo", some "bar",
        ⟨false, true⟩⟩).message =
      some { parent_surface_id := some 3, app_id := some "foo", title := some "bar" } :=
  ⟨⟨((c4_toplevel_role_message _).2.1 rfl).2, ((c4_toplevel_role_message _).2.1 rfl).1⟩,
    ((c4_toplevel_role_message _).2.2 rfl).1⟩

/-- Claim C5 counterexample: in a run whose second commit carries a `Removed`
buffer for a fresh surface, the emitted `commit_surface` message carries
`texture_id = 0` (the `unwrap_or((0, None))` default of
`construct_surface_message`), not the claimed `-1`; the local `-1` computed
inside `commit` never reaches the outgoing message. -/
theorem c5_removed_commit_counterexample :
    commitTexIds (run c5Ops).messages = [(1, 0)] ∧
    ((1 : Nat), (-1 : Int)) ∉ commitTexIds (run c5Ops).messages := by
  refine ⟨by decide, by decide⟩

/-- Claim C5 (amended): a commit whose pending buffer assignment is `Removed`
imports nothing and commits nothing to any swap chain — the step only appends
the `commit_surface` message, leaving counters, rings, reverse index and swap
chains untouched — and the outgoing message carries the last live
texture id, or `0` when it has none. -/
theorem c5_removed_commit (s : ServerState) (sid : Nat) (attrs : SurfaceAttributes)
    (h : attrs.buffer = some BufferAssignment.Removed) :
    commitStep s sid attrs =
      { s with messages := s.messages ++
          [Msg.commit_surface (construct_surface_message s sid attrs)] } ∧
    (construct_surface_message s sid attrs).texture_id = lastTextureId s sid := by
  refine ⟨?_, rfl⟩
  rw [commitStep_eq, commitTexturePhase_removed s sid attrs h]

/-- Witness for C5 on a fresh surface with a `Removed` buffer. -/
theorem c5_removed_commit_witness :
    commitStep (run [Op.newSurface]) 1 removedAttrs =
      { run [Op.newSurface] with messages := (run [Op.newSurface]).messages ++
          [Msg.commit_surface (construct_surface_message (run [Op.newSurface]) 1
            removedAttrs)] } ∧
    (construct_surface_message (run [Op.newSurface]) 1 removedAttrs).texture_id =
      lastTextureId (run [Op.newSurface]) 1 :=
  c5_removed_commit (run [Op.newSurface]) 1 removedAttrs rfl

/-- Claim C6 counterexample: after three size-changing commits of surface 1,
the reverse index still maps the evicted texture id 1 to surface 1, but no
entry `(1, _)` remains in the forward map — the claimed "if and only if"
consistency fails, because eviction and destruction never clean the reverse
index. -/
theorem c6_reverse_index_counterexample :
    ¬ ∀ (tid : Int) (sid : Nat),
        alookup tid (run c6Ops).surface_id_per_texture_id = some sid ↔
        ∃ size, (tid, size) ∈ (alookup sid (run c6Ops).texture_ids_per_surface_id).getD [] := by
  intro h
  obtain ⟨size, hmem⟩ := (h 1 1).mp (by decide)
  have hv : (alookup 1 (run c6Ops).texture_ids_per_surface_id).getD [] =
      [(2, ⟨300, 100⟩), (3, ⟨400, 100⟩)] := by decide
  rw [hv] at hmem
  rcases List.mem_cons.mp hmem with h1 | h1
  · injection h1 with h1a h1b
    exact absurd h1a (by decide)
  · rcases List.mem_cons.mp h1 with h2 | h2
    · injection h2 with h2a h2b
      exact absurd h2a (by decide)
    · exact absurd h2 (List.not_mem_nil _)

/-- Claim C6 (amended): at every point during a run the reverse index contains
the forward map — whenever `(t, _)` is present in
`texture_ids_per_surface_id[s]`, the reverse index maps `t` to `s` — but stale
reverse entries for evicted texture ids may remain, so the converse fails. -/
theorem c6_forward_to_reverse (ops : List Op) (sid : Nat) (tid : Int) (size : BufSize)
    (h : (tid, size) ∈ (alookup sid (run ops).texture_ids_per_surface_id).getD []) :
    alookup tid (run ops).surface_id_per_texture_id = some sid :=
  (inv_run fwdRevInv_init fwdRevInv_step ops sid tid size h).1

/-- Witness for C6 at a run with one imported texture. -/
theorem c6_forward_to_reverse_witness :
    ((1 : Int), BufSize.mk 200 100) ∈
      (alookup 1 (run c6WitnessOps).texture_ids_per_surface_id).getD [] ∧
    alookup (1 : Int) (run c6WitnessOps).surface_id_per_texture_id = some 1 :=
  ⟨by decide, c6_forward_to_reverse c6WitnessOps 1 1 ⟨200, 100⟩ (by decide)⟩

/-- Claim C7: if a commit of a surface emitted a `commit_surface` with texture
id `t`, a second commit of the same surface with an unchanged buffer emits a
`commit_surface` whose texture id is again `t`, allocates no texture id
(counter and `register_external_texture` trace unchanged) and re-uploads
nothing (swap chains unchanged). -/
theorem c7_unchanged_commit_same_texture (s : ServerState) (sid : Nat)
    (attrs1 attrs2 : SurfaceAttributes) (pre : List (Nat × Int)) (t : Int)
    (hunch : attrs2.buffer = none)
    (hfirst : commitTexIds (commitStep s sid attrs1).messages = pre ++ [(sid, t)]) :
    commitTexIds (commitStep (commitStep s sid attrs1) sid attrs2).messages =
      (pre ++ [(sid, t)]) ++ [(sid, t)] ∧
    (commitStep (commitStep s sid attrs1) sid attrs2).next_texture_id =
      (commitStep s sid attrs1).next_texture_id ∧
    textureIdTrace (commitStep (commitStep s sid attrs1) sid attrs2).messages =
      textureIdTrace (commitStep s sid attrs1).messages ∧
    (commitStep (commitStep s sid attrs1) sid attrs2).texture_swapchains =
      (commitStep s sid attrs1).texture_swapchains := by
  set s1 := commitStep s sid attrs1 with hs1
  have hphase : commitTexturePhase s1 sid attrs2 = s1 :=
    commitTexturePhase_unchanged s1 sid attrs2 hunch
  have hlastEq : lastTextureId s1 sid =
      lastTextureId (commitTexturePhase s sid attrs1) sid := by
    simp only [lastTextureId, hs1, commitStep_fwd]
  have hlast : lastTextureId s1 sid = t := by
    have h2 := commitTexIds_commitStep s sid attrs1
    rw [← hs1, hfirst] at h2
    have h3 := congrArg List.getLast? h2
    rw [List.getLast?_concat, List.getLast?_concat] at h3
    rw [hlastEq]
    exact (Prod.mk.injEq _ _ _ _ |>.mp (Option.some.injEq _ _ ▸ h3 : (sid, t) =
      (sid, lastTextureId (commitTexturePhase s sid attrs1) sid))).2.symm
  refine ⟨?_, ?_, ?_, ?_⟩
  · rw [commitTexIds_commitStep s1 sid attrs2, hphase, hlast, hfirst]
  · rw [commitStep_next_texture_id, hphase]
  · rw [commitStep_messages s1 sid attrs2, hphase, textureIdTrace_append,
      textureIdTrace_commit, List.append_nil]
  · rw [commitStep_swapchains, hphase]

/-- Witness for C7: commit a 200×100 buffer, then an unchanged commit repeats
texture id 1. -/
theorem c7_unchanged_commit_same_texture_witness :
    commitTexIds (commitStep (commitStep initState 1 (newBufferAttrs 200 100)) 1
        unchangedAttrs).messages =
      ([] ++ [((1 : Nat), (1 : Int))]) ++ [((1 : Nat), (1 : Int))] :=
  (c7_unchanged_commit_same_texture initState 1 (newBufferAttrs 200 100) unchangedAttrs []
    1 rfl (by decide)).1

/-- Claim C8 (code bug): `pointer_hover` resolves a registered id to a motion
at `(x, y)` followed by a frame and `success`, and an unknown id to
`surface_doesnt_exist` with no motion — but every motion is delivered with the
constant serial 0 (`Serial::from(0)` marked `TODO` in the source), never a
fresh serial. -/
theorem c8_pointer_hover_constant_serial (x y : ℚ) (now : Nat) :
    (pointer_hover [1] 1 x y now).response = Response.success ∧
    (pointer_hover [1] 1 x y now).motions =
      [{ focus := some 1, location := (x, y), serial := 0, time := now }] ∧
    (pointer_hover [1] 999 x y now).response = Response.error "surface_doesnt_exist" ∧
    (pointer_hover [1] 999 x y now).motions = [] :=
  ⟨rfl, rfl, rfl, rfl⟩

/-- Claim C9 counterexample: destroying a surface removes it from the id map
and emits `destroy_surface` as the last message, but its swap chain, forward
ring and reverse-index entries all survive — they are never released. -/
theorem c9_destroy_counterexample :
    (run c9Ops).surfaces = [] ∧
    (run c9Ops).messages.getLast? = some (Msg.destroy_surface 1) ∧
    alookup (1 : Int) (run c9Ops).texture_swapchains = some [⟨200, 100⟩] ∧
    alookup 1 (run c9Ops).texture_ids_per_surface_id = some [(1, ⟨200, 100⟩)] ∧
    alookup (1 : Int) (run c9Ops).surface_id_per_texture_id = some 1 := by
  refine ⟨by decide, by decide, by decide, by decide, by decide⟩

/-- Claim C9 (amended): destroying a surface removes its id from the
id→surface map and appends a `destroy_surface` message carrying that id as the
only output of the step; the swap chains of the surface and texture id-map entries are
not released and persist unchanged. -/
theorem c9_destroy_effect (s : ServerState) (sid : Nat) :
    step s (Op.destroy sid) =
      { s with surfaces := s.surfaces.filter (fun i => i ≠ sid)
               messages := s.messages ++ [Msg.destroy_surface sid] } ∧
    sid ∉ (step s (Op.destroy sid)).surfaces ∧
    (step s (Op.destroy sid)).texture_swapchains = s.texture_swapchains ∧
    (step s (Op.destroy sid)).texture_ids_per_surface_id = s.texture_ids_per_surface_id ∧
    (step s (Op.destroy sid)).surface_id_per_texture_id = s.surface_id_per_texture_id := by
  refine ⟨rfl, ?_, rfl, rfl, rfl⟩
  intro hmem
  rcases List.mem_filter.mp hmem with ⟨-, hp⟩
  simp at hp

/-- Claim C10: when the client has set an input region whose rectangle list
holds no `Add` rectangle, the input region of the emitted message is the default
zero rectangle, with no fallback to the buffer bounds. -/
theorem c10_input_region_no_add (s : ServerState) (sid : Nat) (attrs : SurfaceAttributes)
    (rects : List (RectangleKind × Rect)) (hset : attrs.input_region = some rects)
    (hnoadd : ∀ kr ∈ rects, kr.1 ≠ RectangleKind.Add) :
    (construct_surface_message s sid attrs).input_region = ⟨0, 0, 0, 0⟩ := by
  simp only [construct_surface_message, hset, mergeAddRects_no_add rects hnoadd]
  rfl

/-- Witness for C10 at a state whose surface has a 200×100 texture, so a
buffer-bounds fallback would be nonzero, with a subtract-only region. -/
theorem c10_input_region_no_add_witness :
    (construct_surface_message (run c10WitnessOps) 1 subtractOnlyAttrs).input_region =
      ⟨0, 0, 0, 0⟩ :=
  c10_input_region_no_add (run c10WitnessOps) 1 subtractOnlyAttrs
    [(RectangleKind.Subtract, ⟨5, 5, 10, 10⟩)] rfl (by decide)

end Veshell
